import Mathlib

/-!
Verification of the financial data normalization and ratio/valuation
computation engine of the DART financial-analysis repository.

The Python services are shallowly embedded as Lean functions:

* `prepare_data` models `FinancialService.prepare_data` and
  `DARTService._prepare_data` (identical logic).
* `fs_calculate_ratios` models `FinancialService.calculate_ratios`;
  `dart_calc_ratios` models `DARTService._calc_ratios`;
  `doc_calc_ratios` models `DocumentFinancialService._calc_ratios`.
* `fs_calculate_per_pbr` models `FinancialService.calculate_per_pbr`;
  `stock_calc_per_pbr` models `StockService.calc_per_pbr`.
* `format_comparison_by_year` models
  `FinancialService.format_comparison_by_year`.
* `get_unlisted_financial_data` models
  `UnlistedFinancialService.get_unlisted_financial_data` and
  `extract_financial_from_document` models
  `DocumentFinancialService.extract_financial_from_document`, with the
  external collaborators (DART repository downloads, file reads, the LLM
  extraction capability) supplied as oracle arguments of `Except` type,
  and the temporary-file state passed explicitly.

Python floats are modelled as rationals (`ℚ`), so arithmetic is exact and
total; Python string amounts after `safe_float` are modelled as
`Option ℚ` (`none` = missing or unparseable, which `safe_float` sends to
0).  Python string comparison is code-point lexicographic, modelled by
`lexLt` on the character list of a `String`.
-/

/-- Code-point lexicographic strict order on character lists; this is the
order Python uses to compare strings. -/
def lexLt : List Char → List Char → Bool
  | _ :: _, [] => false
  | [], [] => false
  | [], _ :: _ => true
  | a :: as, b :: bs =>
      if a.toNat < b.toNat then true
      else if b.toNat < a.toNat then false
      else lexLt as bs

/-- Strict `<` on strings as Python compares them. -/
def strLt (a b : String) : Bool := lexLt a.data b.data

/-- Insert a string into a descending-sorted list, keeping it descending. -/
def insertDesc (y : String) : List String → List String
  | [] => [y]
  | x :: xs => if strLt x y then y :: x :: xs else x :: insertDesc y xs

/-- Descending sort, modelling Python `sorted(xs, reverse=True)` (on the
distinct elements of a set the descending arrangement is unique, so any
correct descending sort is the same function). -/
def sortDesc (l : List String) : List String := l.foldr insertDesc []

/-- Head-of-list match: does `pat` occur at the front of `l`? -/
def leadMatch : List Char → List Char → Bool
  | [], _ => true
  | _ :: _, [] => false
  | p :: ps, c :: cs => p == c && leadMatch ps cs

/-- Contiguous-substring test on character lists. -/
def hasSubList (pat : List Char) : List Char → Bool
  | [] => leadMatch pat []
  | c :: cs => leadMatch pat (c :: cs) || hasSubList pat cs

/-- Python's `pat in s` substring containment on strings. -/
def strContainsSub (s pat : String) : Bool := hasSubList pat.data s.data

/-- The three comparative periods of a filing: current, prior,
prior-prior (`thstrm` / `frmtrm` / `bfefrmtrm`). -/
inductive Period where
  | thstrm
  | frmtrm
  | bfefrmtrm
deriving DecidableEq, Repr

/-- Three per-period rational amounts, the value shape stored per account
category by the ratio and valuation calculators. -/
structure Amounts where
  thstrm : ℚ
  frmtrm : ℚ
  bfefrmtrm : ℚ
deriving DecidableEq, Repr

def Amounts.get (a : Amounts) : Period → ℚ
  | .thstrm => a.thstrm
  | .frmtrm => a.frmtrm
  | .bfefrmtrm => a.bfefrmtrm

def mkAmounts (f : Period → ℚ) : Amounts :=
  ⟨f .thstrm, f .frmtrm, f .bfefrmtrm⟩

/-- One financial record row.  Amount fields are `Option ℚ`: `none`
models a missing or non-numeric amount string (which `safe_float` sends
to 0), `some q` models a numeric-like string denoting `q`.  A missing
`account_id` key is modelled by the empty string, exactly the default
the source uses (`item.get('account_id', '')`).  `base_display_name` and
`display_name` are overwritten unconditionally by the normalizer, so
plain `String` fields are a faithful model of the dynamically added dict
keys. -/
structure FinItem where
  account_id : String
  account_nm : String
  thstrm_amount : Option ℚ
  frmtrm_amount : Option ℚ
  bfefrmtrm_amount : Option ℚ
  thstrm_dt : String
  base_display_name : String
  display_name : String
deriving DecidableEq, Repr

/-- Models `safe_float` / `FinancialService._safe_float`: a missing or
unparseable value becomes 0, a numeric value is kept (comma stripping
and string-to-float parsing are abstracted into the `Option ℚ`
representation of the amount). -/
def safe_float : Option ℚ → ℚ
  | none => 0
  | some q => q

def itemAmounts (i : FinItem) : Amounts :=
  ⟨safe_float i.thstrm_amount, safe_float i.frmtrm_amount, safe_float i.bfefrmtrm_amount⟩

/-- The fixed `ACCOUNT_ID_MAP` table shared by `FinancialService` and
`dart_service`. -/
def ACCOUNT_ID_MAP : String → Option String := fun id =>
  if id = "ifrs-full_Assets" then some "자산총계"
  else if id = "ifrs-full_Liabilities" then some "부채총계"
  else if id = "ifrs-full_Equity" then some "자본총계"
  else if id = "ifrs-full_Revenue" then some "매출액"
  else if id = "dart_OperatingIncomeLoss" then some "영업이익"
  else if id = "ifrs-full_ProfitLoss" then some "당기순이익"
  else if id = "dart_ProfitLossAttributableToOwnersOfParent" then some "당기순이익"
  else if id = "ifrs-full_ProfitLossAttributableToOwnersOfParent" then some "당기순이익"
  else none

/-- The category assigned to one record by the first pass of
`prepare_data`: exact `ACCOUNT_ID_MAP` lookup, then the net-income
substring fallback on the free-text name, then the name verbatim. -/
def pd_base (item : FinItem) : String :=
  match ACCOUNT_ID_MAP item.account_id with
  | some nm => nm
  | none =>
      if strContainsSub item.account_nm "당기순이익" then "당기순이익"
      else item.account_nm

/-- First pass of `prepare_data`: populate `base_display_name`. -/
def pd_step1 (data : List FinItem) : List FinItem :=
  data.map fun item => { item with base_display_name := pd_base item }

/-- Second pass of `prepare_data`: disambiguate duplicate categories by
suffixing the account identifier, using the `Counter` of all
`base_display_name` values of the record set `l`. -/
def pd_mark (l : List FinItem) (item : FinItem) : FinItem :=
  if 1 < (l.map fun i => i.base_display_name).count item.base_display_name then
    { item with display_name := item.base_display_name ++ " (" ++ item.account_id ++ ")" }
  else
    { item with display_name := item.base_display_name }

/-- Models `FinancialService.prepare_data` and `DARTService._prepare_data`
(the Account Normalizer; the two copies are line-for-line the same
logic). -/
def prepare_data (data : List FinItem) : List FinItem :=
  (pd_step1 data).map (pd_mark (pd_step1 data))

/-- The category → per-period amounts lookup that `calculate_ratios`,
`_calc_ratios` and `calc_per_pbr` all build from the record list (a dict
written in input order, so a later record with the same
`base_display_name` overwrites an earlier one). -/
def buildAccounts (data : List FinItem) : String → Option Amounts :=
  data.foldl
    (fun acc item => fun n =>
      if n = item.base_display_name then some (itemAmounts item) else acc n)
    (fun _ => none)

/-- The same dict, but keyed by the raw `account_nm`, as built by
`DocumentFinancialService._calc_ratios`. -/
def buildAccountsNm (data : List FinItem) : String → Option Amounts :=
  data.foldl
    (fun acc item => fun n =>
      if n = item.account_nm then some (itemAmounts item) else acc n)
    (fun _ => none)

/-- Models `accounts.get(name, {}).get(period, 0)`: numerator lookup with
default 0. -/
def acctNum (accounts : String → Option Amounts) (name : String) (p : Period) : ℚ :=
  match accounts name with
  | some a => a.get p
  | none => 0

/-- Models `accounts.get(name, {}).get(period, 1)`: denominator lookup
with default 1 (an absent denominator category defaults to 1, not 0). -/
def acctDen (accounts : String → Option Amounts) (name : String) (p : Period) : ℚ :=
  match accounts name with
  | some a => a.get p
  | none => 1

/-- Round half to even at 0 decimal places, the rounding Python's
built-in `round` uses (modelled on exact rationals). -/
def roundHalfEven (q : ℚ) : ℤ :=
  if q - ⌊q⌋ < 1/2 then ⌊q⌋
  else if 1/2 < q - ⌊q⌋ then ⌊q⌋ + 1
  else if ⌊q⌋ % 2 = 0 then ⌊q⌋ else ⌊q⌋ + 1

/-- Python `round(q, 2)` on exact rationals. -/
def round2 (q : ℚ) : ℚ := (roundHalfEven (q * 100) : ℚ) / 100

/-- The `calc_ratio` helper of `FinancialService.calculate_ratios`
(always called with `percentage=True`); note there is no rounding in
this copy of the helper. -/
def fs_calc_ratio (accounts : String → Option Amounts) (numerator denominator : String) :
    Amounts :=
  mkAmounts fun p =>
    let num := acctNum accounts numerator p
    let den := acctDen accounts denominator p
    if den ≠ 0 then num / den * 100 else 0

/-- The `ratio` helper of `DARTService._calc_ratios` and
`DocumentFinancialService._calc_ratios` (always called with
`percentage=True`); this copy rounds to 2 decimal places. -/
def dart_ratio (accounts : String → Option Amounts) (numerator denominator : String) :
    Amounts :=
  mkAmounts fun p =>
    let num := acctNum accounts numerator p
    let den := acctDen accounts denominator p
    if den ≠ 0 then round2 (num / den * 100) else 0

def fs_ratios_of (accounts : String → Option Amounts) : List (String × Amounts) :=
  [("영업이익률", fs_calc_ratio accounts "영업이익" "매출액"),
   ("순이익률", fs_calc_ratio accounts "당기순이익" "매출액"),
   ("ROE", fs_calc_ratio accounts "당기순이익" "자본총계"),
   ("ROA", fs_calc_ratio accounts "당기순이익" "자산총계"),
   ("부채비율", fs_calc_ratio accounts "부채총계" "자본총계"),
   ("자기자본비율", fs_calc_ratio accounts "자본총계" "자산총계")]

def dart_ratios_of (accounts : String → Option Amounts) : List (String × Amounts) :=
  [("영업이익률", dart_ratio accounts "영업이익" "매출액"),
   ("순이익률", dart_ratio accounts "당기순이익" "매출액"),
   ("ROE", dart_ratio accounts "당기순이익" "자본총계"),
   ("ROA", dart_ratio accounts "당기순이익" "자산총계"),
   ("부채비율", dart_ratio accounts "부채총계" "자본총계"),
   ("자기자본비율", dart_ratio accounts "자본총계" "자산총계")]

/-- Models `FinancialService.calculate_ratios`. -/
def fs_calculate_ratios (data : List FinItem) : List (String × Amounts) :=
  fs_ratios_of (buildAccounts data)

/-- Models `DARTService._calc_ratios`. -/
def dart_calc_ratios (data : List FinItem) : List (String × Amounts) :=
  dart_ratios_of (buildAccounts data)

/-- Models `DocumentFinancialService._calc_ratios` (same ratio helper as
the DART copy, but the account dict is keyed by `account_nm`). -/
def doc_calc_ratios (data : List FinItem) : List (String × Amounts) :=
  dart_ratios_of (buildAccountsNm data)

/-- The per-period value of a named ratio in a computed ratio set. -/
def ratioValue (rs : List (String × Amounts)) (nm : String) (p : Period) : Option ℚ :=
  (rs.lookup nm).map (fun a => a.get p)

/-- The (name, numerator, denominator) triples of the six fixed ratios. -/
def ratio_defs : List (String × String × String) :=
  [("영업이익률", "영업이익", "매출액"),
   ("순이익률", "당기순이익", "매출액"),
   ("ROE", "당기순이익", "자본총계"),
   ("ROA", "당기순이익", "자산총계"),
   ("부채비율", "부채총계", "자본총계"),
   ("자기자본비율", "자본총계", "자산총계")]

/-- A PER/PBR cell: the literal string `"N/A"`, the error marker string
`"오류"`, or a value formatted to 2 decimals (modelled by the rounded
rational the formatted string displays). -/
inductive PVal where
  | NA : PVal
  | err : PVal
  | num : ℚ → PVal
deriving DecidableEq, Repr

/-- The three per-period cells of a PER or PBR row. -/
structure PeriodVals where
  thstrm : PVal
  frmtrm : PVal
  bfefrmtrm : PVal
deriving DecidableEq, Repr

def PeriodVals.get (v : PeriodVals) : Period → PVal
  | .thstrm => v.thstrm
  | .frmtrm => v.frmtrm
  | .bfefrmtrm => v.bfefrmtrm

def mkPeriodVals (f : Period → PVal) : PeriodVals :=
  ⟨f .thstrm, f .frmtrm, f .bfefrmtrm⟩

def naVals : PeriodVals := ⟨.NA, .NA, .NA⟩

def errVals : PeriodVals := ⟨.err, .err, .err⟩

/-- Result shape of both PER/PBR calculators. -/
structure PerPbrResult where
  PER : PeriodVals
  PBR : PeriodVals
  note : Option String
deriving DecidableEq, Repr

/-- The main computation of `FinancialService.calculate_per_pbr`, as a
function of the account dict. -/
def fs_per_pbr_of (accounts : String → Option Amounts) (stock_price shares : ℚ) :
    PerPbrResult :=
  let per := mkPeriodVals fun p =>
    let net_profit := acctNum accounts "당기순이익" p
    let eps := if 0 < shares then net_profit / shares else 0
    if 0 < eps then PVal.num (round2 (stock_price / eps)) else PVal.NA
  let pbr := mkPeriodVals fun p =>
    let equity := acctNum accounts "자본총계" p
    let bps := if 0 < shares then equity / shares else 0
    if 0 < bps then PVal.num (round2 (stock_price / bps)) else PVal.NA
  ⟨per, pbr, none⟩

/-- Models `FinancialService.calculate_per_pbr`.  The Python guard
`if not stock_price or not shares` is falsy-ness of a float, i.e. the
value 0 (floats here are exact rationals). -/
def fs_calculate_per_pbr (data : List FinItem) (stock_price shares : ℚ) : PerPbrResult :=
  if stock_price = 0 ∨ shares = 0 then
    ⟨naVals, naVals, some "주가 또는 주식수 정보 없음"⟩
  else
    fs_per_pbr_of (buildAccounts data) stock_price shares

/-- The slice of the market-data provider result that
`StockService.calc_per_pbr` reads: a status flag, an optional price, an
optional share count and an upstream message. -/
structure StockInfo where
  status : String
  price : Option ℚ
  shares : Option ℚ
  message : String
deriving DecidableEq, Repr

/-- The CPython message of the `TypeError` raised by `None / x`, the one
computation in `StockService.calc_per_pbr` that can raise when the
provider returned no price. -/
def typeErrorMsg : String := "unsupported operand type(s) for /: 'NoneType' and 'float'"

/-- One loop iteration of the `try` block of `StockService.calc_per_pbr`:
compute EPS/BPS for one period and format the PER/PBR cells.  Dividing
the (possibly `None`) price by a positive EPS/BPS raises, modelled by
`Except.error`.  The Python formatting guard `f"{per:.2f}" if per else
'N/A'` is falsy for both `None` and `0.0`. -/
def stock_step (accounts : String → Option Amounts) (price? : Option ℚ) (shares : ℚ)
    (p : Period) : Except String (PVal × PVal) := do
  let net_profit := acctNum accounts "당기순이익" p
  let equity := acctNum accounts "자본총계" p
  let eps := if 0 < shares then net_profit / shares else 0
  let bps := if 0 < shares then equity / shares else 0
  let per? ← if 0 < eps then
      match price? with
      | none => Except.error typeErrorMsg
      | some v => Except.ok (some (v / eps))
    else Except.ok (none : Option ℚ)
  let perV := match per? with
    | some v => if v = 0 then PVal.NA else PVal.num (round2 v)
    | none => PVal.NA
  let pbr? ← if 0 < bps then
      match price? with
      | none => Except.error typeErrorMsg
      | some v => Except.ok (some (v / bps))
    else Except.ok (none : Option ℚ)
  let pbrV := match pbr? with
    | some v => if v = 0 then PVal.NA else PVal.num (round2 v)
    | none => PVal.NA
  Except.ok (perV, pbrV)

/-- The whole `try` block of `StockService.calc_per_pbr` (the loop over
the three periods, aborted by the first raising iteration). -/
def stock_body_of (accounts : String → Option Amounts) (price? : Option ℚ) (shares : ℚ) :
    Except String (PeriodVals × PeriodVals) := do
  let t ← stock_step accounts price? shares .thstrm
  let f ← stock_step accounts price? shares .frmtrm
  let b ← stock_step accounts price? shares .bfefrmtrm
  Except.ok (⟨t.1, f.1, b.1⟩, ⟨t.2, f.2, b.2⟩)

/-- Models `StockService.calc_per_pbr`: dispatch on the provider status
flag, then on a missing share count, then run the guarded computation,
converting any raised exception into the `"오류"` marker rows plus a
textual note. -/
def stock_calc_per_pbr (items : List FinItem) (si : StockInfo) : PerPbrResult :=
  if si.status = "no_data" then
    ⟨naVals, naVals, some "비상장 회사"⟩
  else if si.status = "error" then
    ⟨errVals, errVals, some si.message⟩
  else
    match si.shares with
    | none => ⟨naVals, naVals, some "발행주식수 정보 없음 (데이터 제공자 한계)"⟩
    | some shares =>
      match stock_body_of (buildAccounts items) si.price shares with
      | .ok r => ⟨r.1, r.2, none⟩
      | .error e => ⟨errVals, errVals, some ("계산 오류: " ++ e)⟩

/-- Per-company payload inside the comparison assembler's input:
already-normalized items plus the company's computed ratio set. -/
structure CompData where
  prepared_data : List FinItem
  ratios : List (String × Amounts)
deriving DecidableEq, Repr

/-- Company metadata as `format_comparison_by_year` reads it
(`company_info.get(corp_code, {}).get('corp_name', corp_code)` and the
same for `stock_code` with default `'N/A'`). -/
structure CompMeta where
  corp_name : Option String
  stock_code : Option String
deriving DecidableEq, Repr

/-- One per-company entry of one year bucket of the comparison result. -/
structure CompEntry where
  corp_code : String
  corp_name : String
  stock_code : String
  financial_data : List FinItem
  ratios : List (String × Amounts)
deriving DecidableEq, Repr

/-- All years readable from the current-period date fields across all
companies' items (`thstrm_dt[:4]` whenever `thstrm_dt` is truthy with at
least 4 characters), with multiplicity, in iteration order. -/
def yearsOf (companies : List (String × CompData)) : List String :=
  companies.foldr
    (fun c acc =>
      (c.2.prepared_data.filterMap fun item =>
        if 4 ≤ item.thstrm_dt.length then some (item.thstrm_dt.take 4) else none) ++ acc)
    []

/-- The entry `format_comparison_by_year` appends for one company into a
year bucket: full item list and full ratio set, with metadata defaults. -/
def comparison_entry (info : List (String × CompMeta)) (c : String × CompData) : CompEntry :=
  let m := info.lookup c.1
  { corp_code := c.1
    corp_name := ((m.bind fun meta => meta.corp_name).getD c.1)
    stock_code := ((m.bind fun meta => meta.stock_code).getD "N/A")
    financial_data := c.2.prepared_data
    ratios := c.2.ratios }

/-- Models `FinancialService.format_comparison_by_year`.  Python dicts
preserve insertion order, so both the input mapping and the year-keyed
result are modelled as association lists; the distinct collected years
(a Python `set`) are modelled by `dedup`, and `sorted(..., reverse=True)`
by `sortDesc`. -/
def format_comparison_by_year (companies : List (String × CompData))
    (info : List (String × CompMeta)) : List (String × List CompEntry) :=
  let all_years := sortDesc (yearsOf companies).dedup
  all_years.map fun year => (year, companies.map (comparison_entry info))

/-- The sublist of records that survive "last occurrence wins" per
`base_display_name`: a record is kept iff no later record carries the
same `base_display_name`. -/
def keepLast : List FinItem → List FinItem
  | [] => []
  | x :: xs =>
      if xs.any (fun y => y.base_display_name == x.base_display_name) then keepLast xs
      else x :: keepLast xs

/-- File-system state threaded through the document pipelines: whether
the temporary downloaded document file currently exists. -/
structure FSState where
  tempExists : Bool
deriving DecidableEq, Repr

/-- A Python exception as the pipelines classify it: one of the typed
domain exceptions (`DARTAPIException` / `LLMException`, re-raised or
passed through with their own message) or any other exception (wrapped
with a fixed prefix). -/
inductive PyErr where
  | typed (msg : String)
  | generic (msg : String)
deriving DecidableEq, Repr

/-- One disclosure search hit (`report_nm`, `rcept_no`). -/
structure Report where
  report_nm : String
  rcept_no : String
deriving DecidableEq, Repr

/-- One item of the LLM extraction result: a canonical account name and
three period amount strings (modelled as the rationals they denote;
`none` models a missing key, defaulted to `'0'` by the converters). -/
structure ExtractedItem where
  account_nm : String
  thstrm_amount : Option ℚ
  frmtrm_amount : Option ℚ
  bfefrmtrm_amount : Option ℚ
deriving DecidableEq, Repr

/-- The `account_mapping` dict of the two `_convert_to_standard_format`
implementations. -/
def account_mapping : String → Option String := fun nm =>
  if nm = "자산총계" then some "ifrs-full_Assets"
  else if nm = "부채총계" then some "ifrs-full_Liabilities"
  else if nm = "자본총계" then some "ifrs-full_Equity"
  else if nm = "매출액" then some "ifrs-full_Revenue"
  else if nm = "영업이익" then some "dart_OperatingIncomeLoss"
  else if nm = "당기순이익" then some "ifrs-full_ProfitLoss"
  else none

/-- Models `re.search(r'(\d{4})', s)`: the first run of four consecutive
decimal digits in `s`. -/
def find4digits : List Char → Option String
  | a :: b :: c :: d :: rest =>
      if a.isDigit && b.isDigit && c.isDigit && d.isDigit then
        some (String.mk [a, b, c, d])
      else find4digits (b :: c :: d :: rest)
  | _ => none

/-- Shared body of the two `_convert_to_standard_format` implementations:
map one extracted item to the standard raw-record shape for business
year `year` (period-end dates synthesized as Dec 31 of `year`, `year-1`,
`year-2`; the untouched `base_display_name`/`display_name` dict keys do
not exist yet, modelled by `""`). -/
def convert_item (year : ℕ) (item : ExtractedItem) : FinItem :=
  { account_id := (account_mapping item.account_nm).getD ""
    account_nm := item.account_nm
    thstrm_amount := some ((item.thstrm_amount).getD 0)
    frmtrm_amount := some ((item.frmtrm_amount).getD 0)
    bfefrmtrm_amount := some ((item.bfefrmtrm_amount).getD 0)
    thstrm_dt := toString year ++ "1231"
    base_display_name := ""
    display_name := "" }

/-- Models `UnlistedFinancialService._convert_to_standard_format`
(`int(bsns_year)` is modelled by `toNat?.getD 0`; the API hands a digit
string here, on which the two agree). -/
def unlisted_convert_to_standard_format (financial_items : List ExtractedItem)
    (bsns_year : String) : List FinItem :=
  financial_items.map (convert_item ((bsns_year.toNat?).getD 0))

/-- Models `DocumentFinancialService._convert_to_standard_format`: year
from the first four-digit run of the report name (default `"2023"`),
then the same item conversion, plus the ratio set computed by
`DocumentFinancialService._calc_ratios`. -/
def doc_convert_to_standard_format (financial_items : List ExtractedItem)
    (report_nm : String) : List FinItem × List (String × Amounts) :=
  let bsns_year := (find4digits report_nm.data).getD "2023"
  let items := financial_items.map (convert_item ((bsns_year.toNat?).getD 0))
  (items, doc_calc_ratios items)

/-- Error string a caught exception contributes inside
`get_unlisted_financial_data`: typed domain exceptions are re-raised
as-is, anything else is wrapped. -/
def unlistedErrString : PyErr → String
  | .typed m => m
  | .generic m => "비상장 기업 재무정보 조회 실패: " ++ m

/-- Models `UnlistedFinancialService.get_unlisted_financial_data` as a
state-passing function over oracle outcomes of the external steps:
`reports` is the disclosure search result, `download_result` the outcome
of `download_document` (the temp file is created exactly on success),
`read_result` the outcome of reading the downloaded HTML,
`tables` the string `_extract_financial_tables` returns (that helper
catches its own exceptions and returns `""`), and `llm_result` the LLM
extraction outcome.  The returned `Except` is the
exception/return behaviour of the Python function (it re-raises typed
exceptions and wraps the rest), paired with the final file state. -/
def get_unlisted_financial_data (reports : List Report)
    (download_result : Except PyErr Unit) (read_result : Except PyErr Unit)
    (tables : String) (llm_result : Except PyErr (List ExtractedItem))
    (bsns_year : String) (st : FSState) :
    Except String (List FinItem) × FSState :=
  if reports.isEmpty then
    (Except.ok [], st)
  else
    let audit_reports := reports.filter fun r => strContainsSub r.report_nm "감사보고서"
    let business_reports := reports.filter fun r => strContainsSub r.report_nm "사업보고서"
    match audit_reports, business_reports with
    | [], [] =>
      (Except.error "사업보고서 또는 감사보고서를 찾을 수 없습니다.", st)
    | _, _ =>
      match download_result with
      | .error e => (Except.error (unlistedErrString e), st)
      | .ok _ =>
        let stDown : FSState := { tempExists := true }
        match read_result with
        | .error e => (Except.error (unlistedErrString e), { stDown with tempExists := false })
        | .ok _ =>
          if tables = "" then
            (Except.error "문서에서 재무제표를 찾을 수 없습니다.",
             { stDown with tempExists := false })
          else
            match llm_result with
            | .error e =>
              (Except.error (unlistedErrString e), { stDown with tempExists := false })
            | .ok items =>
              (Except.ok (unlisted_convert_to_standard_format items bsns_year),
               { stDown with tempExists := false })

/-- Result dict of `DocumentFinancialService.extract_financial_from_document`
(failure results carry no `items`/`ratios` keys, modelled by `none`). -/
structure DocResult where
  success : Bool
  error : Option String
  items : Option (List FinItem)
  ratios : Option (List (String × Amounts))
deriving DecidableEq, Repr

/-- Error string contributed by an exception caught at the outer handlers
of `extract_financial_from_document`. -/
def docErrString : PyErr → String
  | .typed m => m
  | .generic m => "재무정보 추출 실패: " ++ m

/-- Models `DocumentFinancialService.extract_financial_from_document` as a
state-passing function over oracle outcomes: PDF download, Upstage
availability, document parse, and financial extraction.  The inner
`finally` deletes the temp file on every path through the inner `try`;
the outer handlers turn every exception into a `success: false` result
with an error string. -/
def extract_financial_from_document (report_nm : String) (has_upstage : Bool)
    (download_result : Except PyErr Unit) (parse_result : Except PyErr Unit)
    (extract_result : Except PyErr (List ExtractedItem)) (st : FSState) :
    DocResult × FSState :=
  match download_result with
  | .error e =>
    ({ success := false, error := some (docErrString e), items := none, ratios := none }, st)
  | .ok _ =>
    let stDown : FSState := { tempExists := true }
    if ¬ has_upstage then
      ({ success := false,
         error := some "Upstage API 키가 설정되지 않았습니다. PDF 파싱을 위해 Upstage API 키가 필요합니다.",
         items := none, ratios := none },
       { stDown with tempExists := false })
    else
      match parse_result with
      | .error e =>
        ({ success := false, error := some (docErrString e), items := none, ratios := none },
         { stDown with tempExists := false })
      | .ok _ =>
        match extract_result with
        | .error e =>
          ({ success := false, error := some (docErrString e), items := none, ratios := none },
           { stDown with tempExists := false })
        | .ok financial_items =>
          let conv := doc_convert_to_standard_format financial_items report_nm
          ({ success := true, error := none, items := some conv.1, ratios := some conv.2 },
           { stDown with tempExists := false })

/-- EPS of one period as `calculate_per_pbr` computes it for a positive
share count: period net income over shares. -/
def epsOf (data : List FinItem) (shares : ℚ) (p : Period) : ℚ :=
  acctNum (buildAccounts data) "당기순이익" p / shares

/-- BPS of one period as `calculate_per_pbr` computes it for a positive
share count: period equity over shares. -/
def bpsOf (data : List FinItem) (shares : ℚ) (p : Period) : ℚ :=
  acctNum (buildAccounts data) "자본총계" p / shares

/-- Normalized operating-income record with current amount 5 and no
revenue record anywhere: sample input showing what an absent denominator
category does. -/
def c1_item : FinItem := ⟨"", "", some 5, none, none, "", "영업이익", ""⟩

/-- Normalized revenue record whose current amount is 0: sample input for
the present-but-zero denominator case. -/
def c1w_item : FinItem := ⟨"", "", some 0, none, none, "", "매출액", ""⟩

/-- A record with empty identifier and plain name `"A"`; two copies of it
collapse onto the same category with the same identifier suffix. -/
def c2_item : FinItem := ⟨"", "A", none, none, none, "", "", ""⟩

/-- Two raw records mapping to the net-income category through two
different identifiers. -/
def c2w_data : List FinItem :=
  [⟨"ifrs-full_ProfitLoss", "당기순이익", none, none, none, "", "", ""⟩,
   ⟨"dart_ProfitLossAttributableToOwnersOfParent", "순이익귀속", none, none, none, "", "", ""⟩]

/-- The normalizer's output for the first record of `c2w_data`. -/
def c2w_a : FinItem :=
  ⟨"ifrs-full_ProfitLoss", "당기순이익", none, none, none, "",
   "당기순이익", "당기순이익 (ifrs-full_ProfitLoss)"⟩

/-- The normalizer's output for the second record of `c2w_data`. -/
def c2w_b : FinItem :=
  ⟨"dart_ProfitLossAttributableToOwnersOfParent", "순이익귀속", none, none, none, "",
   "당기순이익", "당기순이익 (dart_ProfitLossAttributableToOwnersOfParent)"⟩

/-- Normalized operating income 1 / revenue 3 for the current period: the
exact ratio is 100/3, which no 2-decimal rounding can represent. -/
def c3_data : List FinItem :=
  [⟨"", "", some 1, none, none, "", "영업이익", ""⟩,
   ⟨"", "", some 3, none, none, "", "매출액", ""⟩]

/-- Normalized operating income 1 / revenue 4 (with matching raw account
names so that the document-path calculator sees the same categories). -/
def c3w_data : List FinItem :=
  [⟨"", "영업이익", some 1, none, none, "", "영업이익", ""⟩,
   ⟨"", "매출액", some 4, none, none, "", "매출액", ""⟩]

/-- Net income 10 (current) / -4 (prior) and equity 6, for the valuation
calculator samples. -/
def c4_data : List FinItem :=
  [⟨"", "", some 10, some (-4), none, "", "당기순이익", ""⟩,
   ⟨"", "", some 6, none, none, "", "자본총계", ""⟩]

/-- Provider result with a successful status, a price, and a share count
of 0 — falsy but not `None`. -/
def c5_si : StockInfo := ⟨"success", some 5, some 0, ""⟩

/-- Provider result with the `no_data` status flag. -/
def c5w_si : StockInfo := ⟨"no_data", none, none, ""⟩

/-- One normalized item dated in fiscal year 2024. -/
def c6_item : FinItem := ⟨"", "", none, none, none, "20240331", "", ""⟩

/-- One-company comparison input owning only `c6_item`. -/
def c6_companies : List (String × CompData) := [("00001", ⟨[c6_item], []⟩)]

/-- Empty company-metadata mapping: every lookup falls back to defaults. -/
def c6_info : List (String × CompMeta) := []

/-- The single company entry the assembler emits for `c6_companies`. -/
def c6_entry : CompEntry := ⟨"00001", "00001", "N/A", [c6_item], []⟩

/-- The 2024 bucket of the assembled comparison for `c6_companies`. -/
def c6_pair : String × List CompEntry := ("2024", [c6_entry])

/-- One PER (or PBR) cell of `StockService.calc_per_pbr` when a price is
available: `price / metric` formatted to 2 decimals if the per-share
metric is positive and the quotient non-zero, else `"N/A"`. -/
def stock_per_cell (accounts : String → Option Amounts) (v shares : ℚ) (nm : String)
    (p : Period) : PVal :=
  let metric := acctNum accounts nm p / shares
  if 0 < metric then
    (if v / metric = 0 then PVal.NA else PVal.num (round2 (v / metric)))
  else PVal.NA

theorem char_eq_of_toNat_eq (x y : Char) (h : x.toNat = y.toNat) : x = y := by
  cases x with
  | mk v hv =>
    cases y with
    | mk w hw =>
      simp only [Char.toNat] at h
      congr 1
      exact UInt32.ext h

theorem lexLt_irrefl (l : List Char) : lexLt l l = false := by
  induction l with
  | nil => rfl
  | cons a as ih => simp [lexLt, ih]

theorem lexLt_asymm : ∀ (a b : List Char), lexLt a b = true → lexLt b a = false := by
  intro a
  induction a with
  | nil =>
    intro b h
    cases b with
    | nil => simpa [lexLt] using h
    | cons y ys => simp [lexLt]
  | cons x xs ih =>
    intro b h
    cases b with
    | nil => simpa [lexLt] using h
    | cons y ys =>
      simp only [lexLt] at h ⊢
      by_cases h1 : x.toNat < y.toNat
      · have h2 : ¬ y.toNat < x.toNat := by omega
        simp [h1, h2]
      · by_cases h2 : y.toNat < x.toNat
        · simp [h1, h2] at h
        · simp only [if_neg h1, if_neg h2] at h ⊢
          exact ih ys h

theorem lexLt_conn : ∀ (a b : List Char), lexLt a b = false → lexLt b a = false → a = b := by
  intro a
  induction a with
  | nil =>
    intro b h _
    cases b with
    | nil => rfl
    | cons y ys => simp [lexLt] at h
  | cons x xs ih =>
    intro b h h'
    cases b with
    | nil => simp [lexLt] at h'
    | cons y ys =>
      simp only [lexLt] at h h'
      by_cases h1 : x.toNat < y.toNat
      · simp [h1] at h
      · by_cases h2 : y.toNat < x.toNat
        · simp [h1, h2] at h'
        · have hx : x.toNat = y.toNat := by omega
          have hchar : x = y := char_eq_of_toNat_eq x y hx
          simp only [if_neg h1, if_neg h2] at h h'
          rw [hchar, ih ys h h']

theorem lexLt_trans :
    ∀ (a b c : List Char), lexLt a b = true → lexLt b c = true → lexLt a c = true := by
  intro a
  induction a with
  | nil =>
    intro b c hab hbc
    cases c with
    | nil =>
      cases b with
      | nil => simp [lexLt] at hab
      | cons y ys => simp [lexLt] at hbc
    | cons z zs => simp [lexLt]
  | cons x xs ih =>
    intro b c hab hbc
    cases b with
    | nil => simp [lexLt] at hab
    | cons y ys =>
      cases c with
      | nil => simp [lexLt] at hbc
      | cons z zs =>
        simp only [lexLt] at hab hbc ⊢
        by_cases h1 : x.toNat < y.toNat
        · by_cases h2 : y.toNat < z.toNat
          · have : x.toNat < z.toNat := by omega
            simp [this]
          · by_cases h3 : z.toNat < y.toNat
            · simp [h2, h3] at hbc
            · have hyz : y.toNat = z.toNat := by omega
              have : x.toNat < z.toNat := by omega
              simp [this]
        · by_cases h2 : y.toNat < x.toNat
          · simp [h1, h2] at hab
          · have hxy : x.toNat = y.toNat := by omega
            by_cases h3 : y.toNat < z.toNat
            · have : x.toNat < z.toNat := by omega
              simp [this]
            · by_cases h4 : z.toNat < y.toNat
              · simp [h3, h4] at hbc
              · have hyz : y.toNat = z.toNat := by omega
                have e1 : ¬ x.toNat < z.toNat := by omega
                have e2 : ¬ z.toNat < x.toNat := by omega
                simp only [if_neg h1, if_neg h2] at hab
                simp only [if_neg h3, if_neg h4] at hbc
                simp only [if_neg e1, if_neg e2]
                exact ih ys zs hab hbc

theorem strLt_asymm (a b : String) (h : strLt a b = true) : strLt b a = false :=
  lexLt_asymm a.data b.data h

theorem strLt_conn (a b : String) (h : strLt a b = false) (h' : strLt b a = false) : a = b := by
  have hd := lexLt_conn a.data b.data h h'
  cases a
  cases b
  simp only at hd
  rw [hd]

theorem strLt_trans (a b c : String) (h : strLt a b = true) (h' : strLt b c = true) :
    strLt a c = true :=
  lexLt_trans a.data b.data c.data h h'

theorem insertDesc_perm (y : String) (l : List String) :
    List.Perm (insertDesc y l) (y :: l) := by
  induction l with
  | nil => exact List.Perm.refl _
  | cons x xs ih =>
    simp only [insertDesc]
    by_cases h : strLt x y = true
    · simp [h]
    · simp only [h, if_false]
      exact (List.Perm.cons x ih).trans (List.Perm.swap y x xs)

theorem sortDesc_perm (l : List String) : List.Perm (sortDesc l) l := by
  induction l with
  | nil => exact List.Perm.refl _
  | cons x xs ih =>
    simp only [sortDesc, List.foldr]
    exact (insertDesc_perm x _).trans (List.Perm.cons x ih)

theorem mem_insertDesc {a y : String} {l : List String} :
    a ∈ insertDesc y l ↔ a = y ∨ a ∈ l := by
  have := (insertDesc_perm y l).mem_iff (a := a)
  simpa using this

theorem pairwise_insertDesc (y : String) (l : List String)
    (h : l.Pairwise (fun a b => strLt a b = false)) :
    (insertDesc y l).Pairwise (fun a b => strLt a b = false) := by
  induction l with
  | nil => simp [insertDesc]
  | cons x xs ih =>
    rcases List.pairwise_cons.mp h with ⟨hx, hxs⟩
    simp only [insertDesc]
    by_cases hcmp : strLt x y = true
    · simp only [hcmp, if_true]
      refine List.pairwise_cons.mpr ⟨?_, h⟩
      intro z hz
      rcases List.mem_cons.mp hz with rfl | hz'
      · exact strLt_asymm _ _ hcmp
      · by_cases hyz : strLt y z = true
        · have hxz : strLt x z = true := strLt_trans x y z hcmp hyz
          have := hx z hz'
          rw [this] at hxz
          exact absurd hxz (by simp)
        · simpa using hyz
    · simp only [hcmp, if_false]
      refine List.pairwise_cons.mpr ⟨?_, ih hxs⟩
      intro z hz
      rcases mem_insertDesc.mp hz with rfl | hz'
      · simpa using hcmp
      · exact hx z hz'

theorem sortDesc_pairwise (l : List String) :
    (sortDesc l).Pairwise (fun a b => strLt a b = false) := by
  induction l with
  | nil => simp [sortDesc]
  | cons x xs ih => exact pairwise_insertDesc x _ ih

theorem mkAmounts_get (f : Period → ℚ) (p : Period) : (mkAmounts f).get p = f p := by
  cases p <;> rfl

theorem mkPeriodVals_get (f : Period → PVal) (p : Period) :
    (mkPeriodVals f).get p = f p := by
  cases p <;> rfl

theorem append_paren_inj (base x y : String)
    (h : base ++ " (" ++ x ++ ")" = base ++ " (" ++ y ++ ")") : x = y := by
  have hd : (base ++ " (" ++ x ++ ")").data = (base ++ " (" ++ y ++ ")").data := by rw [h]
  simp only [String.data_append, List.append_assoc] at hd
  have h1 := List.append_cancel_left hd
  have h2 := List.append_cancel_left h1
  have h3 := List.append_cancel_right h2
  cases x
  cases y
  simp only at h3
  rw [h3]

theorem pd_mark_base (l : List FinItem) (item : FinItem) :
    (pd_mark l item).base_display_name = item.base_display_name := by
  unfold pd_mark
  split <;> rfl

theorem pd_mark_account_id (l : List FinItem) (item : FinItem) :
    (pd_mark l item).account_id = item.account_id := by
  unfold pd_mark
  split <;> rfl

theorem pd_base_mark (l : List FinItem) (item : FinItem) :
    pd_base (pd_mark l item) = pd_base item := by
  unfold pd_mark
  split <;> rfl

theorem map_base_prepare (data : List FinItem) :
    (prepare_data data).map (fun i => i.base_display_name)
      = (pd_step1 data).map (fun i => i.base_display_name) := by
  unfold prepare_data
  rw [List.map_map]
  apply List.map_congr_left
  intro x _
  exact pd_mark_base _ x

theorem base_eq_pd_base_of_mem_step1 (data : List FinItem) (x : FinItem)
    (hx : x ∈ pd_step1 data) : x.base_display_name = pd_base x := by
  obtain ⟨x0, _, rfl⟩ := List.mem_map.mp hx
  rfl

theorem base_eq_pd_base_of_mem_prepare (data : List FinItem) (y : FinItem)
    (hy : y ∈ prepare_data data) : y.base_display_name = pd_base y := by
  obtain ⟨x, hx, rfl⟩ := List.mem_map.mp hy
  rw [pd_mark_base, pd_base_mark]
  exact base_eq_pd_base_of_mem_step1 data x hx

theorem display_of_mem_prepare (data : List FinItem) (y : FinItem)
    (hy : y ∈ prepare_data data) :
    y.display_name =
      if 1 < ((prepare_data data).map fun i => i.base_display_name).count y.base_display_name
      then y.base_display_name ++ " (" ++ y.account_id ++ ")"
      else y.base_display_name := by
  obtain ⟨x, hx, rfl⟩ := List.mem_map.mp hy
  rw [map_base_prepare, pd_mark_base, pd_mark_account_id]
  unfold pd_mark
  by_cases hc :
      1 < ((pd_step1 data).map fun i => i.base_display_name).count x.base_display_name
  · rw [if_pos hc, if_pos hc]
  · rw [if_neg hc, if_neg hc]

theorem buildAccounts_aux (xs : List FinItem) (acc : String → Option Amounts) (n : String) :
    (xs.foldl
      (fun acc item => fun m =>
        if m = item.base_display_name then some (itemAmounts item) else acc m)
      acc) n
      = match xs.reverse.find? (fun i => i.base_display_name == n) with
        | some i => some (itemAmounts i)
        | none => acc n := by
  induction xs generalizing acc with
  | nil => simp
  | cons x xs ih =>
    simp only [List.foldl_cons, List.reverse_cons]
    rw [ih, List.find?_append]
    cases hfind : xs.reverse.find? (fun i => i.base_display_name == n) with
    | some i => simp
    | none =>
      simp only [Option.none_or]
      by_cases hx : x.base_display_name = n
      · subst hx
        simp [List.find?]
      · have hb : (x.base_display_name == n) = false := by simp [hx]
        simp [List.find?, hb, Ne.symm hx]

theorem buildAccounts_eq_find (data : List FinItem) (n : String) :
    buildAccounts data n
      = (data.reverse.find? (fun i => i.base_display_name == n)).map itemAmounts := by
  unfold buildAccounts
  rw [buildAccounts_aux]
  cases data.reverse.find? (fun i => i.base_display_name == n) <;> rfl

theorem keepLast_find (data : List FinItem) (n : String) :
    (keepLast data).reverse.find? (fun i => i.base_display_name == n)
      = data.reverse.find? (fun i => i.base_display_name == n) := by
  induction data with
  | nil => rfl
  | cons x xs ih =>
    simp only [keepLast]
    by_cases hdup : xs.any (fun y => y.base_display_name == x.base_display_name) = true
    · rw [if_pos hdup, ih, List.reverse_cons, List.find?_append]
      cases hfind : xs.reverse.find? (fun i => i.base_display_name == n) with
      | some i => simp
      | none =>
        simp only [Option.none_or]
        by_cases hx : x.base_display_name = n
        · exfalso
          obtain ⟨y, hy, hyx⟩ := List.any_eq_true.mp hdup
          have hyn : (fun i => i.base_display_name == n) y = true := by
            have : y.base_display_name = x.base_display_name := by simpa using hyx
            simp [this, hx]
          have := List.find?_eq_none.mp hfind y (List.mem_reverse.mpr hy)
          simp [hyn] at this
        · have : (fun i => i.base_display_name == n) x = false := by simp [hx]
          simp [List.find?, this]
    · rw [if_neg hdup, List.reverse_cons, List.reverse_cons,
        List.find?_append, List.find?_append, ih]

theorem buildAccounts_keepLast (data : List FinItem) :
    buildAccounts (keepLast data) = buildAccounts data := by
  funext n
  rw [buildAccounts_eq_find, buildAccounts_eq_find, keepLast_find]

theorem roundHalfEven_nonneg (q : ℚ) (h : 0 ≤ q) : 0 ≤ roundHalfEven q := by
  unfold roundHalfEven
  have h0 : (0:ℤ) ≤ ⌊q⌋ := Int.floor_nonneg.mpr h
  split_ifs <;> omega

theorem round2_nonneg (q : ℚ) (h : 0 ≤ q) : 0 ≤ round2 q := by
  unfold round2
  have h1 : (0:ℤ) ≤ roundHalfEven (q * 100) :=
    roundHalfEven_nonneg _ (by positivity)
  have h2 : (0:ℚ) ≤ (roundHalfEven (q * 100) : ℚ) := by exact_mod_cast h1
  positivity

theorem fs_ratios_lookup (accounts : String → Option Amounts) (nm num den : String)
    (h : (nm, num, den) ∈ ratio_defs) :
    (fs_ratios_of accounts).lookup nm = some (fs_calc_ratio accounts num den) := by
  simp only [ratio_defs, List.mem_cons, List.not_mem_nil, or_false, Prod.mk.injEq] at h
  rcases h with h | h | h | h | h | h <;>
    · obtain ⟨rfl, rfl, rfl⟩ := h
      rfl

theorem dart_ratios_lookup (accounts : String → Option Amounts) (nm num den : String)
    (h : (nm, num, den) ∈ ratio_defs) :
    (dart_ratios_of accounts).lookup nm = some (dart_ratio accounts num den) := by
  simp only [ratio_defs, List.mem_cons, List.not_mem_nil, or_false, Prod.mk.injEq] at h
  rcases h with h | h | h | h | h | h <;>
    · obtain ⟨rfl, rfl, rfl⟩ := h
      rfl

theorem acctDen_absent (accounts : String → Option Amounts) (den : String) (p : Period)
    (h : accounts den = none) : acctDen accounts den p = 1 := by
  simp [acctDen, h]

theorem acctDen_present (accounts : String → Option Amounts) (den : String) (p : Period)
    (a : Amounts) (h : accounts den = some a) : acctDen accounts den p = a.get p := by
  simp [acctDen, h]

theorem fs_calc_ratio_get (accounts : String → Option Amounts) (num den : String) (p : Period) :
    (fs_calc_ratio accounts num den).get p =
      if acctDen accounts den p ≠ 0
      then acctNum accounts num p / acctDen accounts den p * 100
      else 0 := by
  rw [fs_calc_ratio, mkAmounts_get]

theorem dart_ratio_get (accounts : String → Option Amounts) (num den : String) (p : Period) :
    (dart_ratio accounts num den).get p =
      if acctDen accounts den p ≠ 0
      then round2 (acctNum accounts num p / acctDen accounts den p * 100)
      else 0 := by
  rw [dart_ratio, mkAmounts_get]

/-- Claim C1 (corrected).  The original claim says an *absent* denominator
category yields 0.0; in fact both `calc_ratio` helpers default an absent
denominator to 1 (`accounts.get(denominator, {}).get(period, 1)`), so the
ratio then equals the numerator amount times 100.  This theorem proves
the amended statement: for each of the six ratios and each period, a
denominator category *present* with amount 0 for that period yields
exactly 0.0 in both `FinancialService.calculate_ratios` and
`DARTService._calc_ratios`, while an absent denominator category yields
the numerator amount times 100 (rounded in the DART copy); totality over
`ℚ` gives "never raises, never inf/NaN". -/
theorem C1_amended_thm (data : List FinItem) (nm num den : String) (p : Period)
    (hmem : (nm, num, den) ∈ ratio_defs) :
    (buildAccounts data den = none →
        ratioValue (fs_calculate_ratios data) nm p
          = some (acctNum (buildAccounts data) num p * 100)
      ∧ ratioValue (dart_calc_ratios data) nm p
          = some (round2 (acctNum (buildAccounts data) num p * 100)))
    ∧ (∀ a : Amounts, buildAccounts data den = some a → a.get p = 0 →
        ratioValue (fs_calculate_ratios data) nm p = some 0
      ∧ ratioValue (dart_calc_ratios data) nm p = some 0) := by
  constructor
  · intro habs
    constructor
    · unfold ratioValue fs_calculate_ratios
      rw [fs_ratios_lookup _ _ _ _ hmem]
      simp only [Option.map_some']
      rw [fs_calc_ratio_get, acctDen_absent _ _ _ habs]
      rw [if_pos one_ne_zero, div_one]
    · unfold ratioValue dart_calc_ratios
      rw [dart_ratios_lookup _ _ _ _ hmem]
      simp only [Option.map_some']
      rw [dart_ratio_get, acctDen_absent _ _ _ habs]
      rw [if_pos one_ne_zero, div_one]
  · intro a ha h0
    constructor
    · unfold ratioValue fs_calculate_ratios
      rw [fs_ratios_lookup _ _ _ _ hmem]
      simp only [Option.map_some']
      rw [fs_calc_ratio_get, acctDen_present _ _ _ _ ha, h0]
      simp
    · unfold ratioValue dart_calc_ratios
      rw [dart_ratios_lookup _ _ _ _ hmem]
      simp only [Option.map_some']
      rw [dart_ratio_get, acctDen_present _ _ _ _ ha, h0]
      simp

/-- Claim C1 counterexample: a normalized list holding only an operating
income record with current amount 5 (so the revenue denominator category
is absent) makes `FinancialService.calculate_ratios` return 500.0 — not
the 0.0 the claim requires — for the current-period operating margin. -/
theorem C1_counterexample :
    buildAccounts [c1_item] "매출액" = none
    ∧ ratioValue (fs_calculate_ratios [c1_item]) "영업이익률" Period.thstrm = some 500
    ∧ (500 : ℚ) ≠ 0 := by
  refine ⟨rfl, ?_, by norm_num⟩
  unfold ratioValue fs_calculate_ratios
  rw [show (fs_ratios_of (buildAccounts [c1_item])).lookup "영업이익률"
      = some (fs_calc_ratio (buildAccounts [c1_item]) "영업이익" "매출액") from rfl]
  simp only [Option.map_some']
  rw [fs_calc_ratio_get]
  rw [show acctDen (buildAccounts [c1_item]) "매출액" Period.thstrm = 1 from rfl]
  rw [show acctNum (buildAccounts [c1_item]) "영업이익" Period.thstrm = 5 from rfl]
  norm_num

/-- Claim C1 witness: the amended theorem applied to a list whose revenue
record has current amount 0 — both calculators yield exactly 0. -/
theorem C1_witness :
    buildAccounts [c1w_item] "매출액" = some ⟨0, 0, 0⟩
    ∧ ratioValue (fs_calculate_ratios [c1w_item]) "영업이익률" Period.thstrm = some 0
    ∧ ratioValue (dart_calc_ratios [c1w_item]) "영업이익률" Period.thstrm = some 0 := by
  have h := (C1_amended_thm [c1w_item] "영업이익률" "영업이익" "매출액" Period.thstrm
      (by decide)).2 ⟨0, 0, 0⟩ rfl rfl
  exact ⟨rfl, h.1, h.2⟩

/-- Claim C3 (corrected).  All three ratio calculators return exactly the
six fixed ratios with the claimed numerator/denominator pairs, and for a
period whose denominator is non-zero the DART and Document calculators
return `numerator/denominator*100` rounded to 2 decimal places — but
`FinancialService.calculate_ratios` returns the *unrounded* value
`numerator/denominator*100`: its copy of the helper has no `round` call,
so the "rounded to 2 decimal places" part of the claim fails for it. -/
theorem C3_amended_thm (data : List FinItem) (nm num den : String) (p : Period)
    (hmem : (nm, num, den) ∈ ratio_defs) :
    ((fs_calculate_ratios data).map Prod.fst = ratio_defs.map Prod.fst
      ∧ (dart_calc_ratios data).map Prod.fst = ratio_defs.map Prod.fst
      ∧ (doc_calc_ratios data).map Prod.fst = ratio_defs.map Prod.fst)
    ∧ (∀ a : Amounts, buildAccounts data den = some a → a.get p ≠ 0 →
        ratioValue (fs_calculate_ratios data) nm p
          = some (acctNum (buildAccounts data) num p / a.get p * 100)
        ∧ ratioValue (dart_calc_ratios data) nm p
          = some (round2 (acctNum (buildAccounts data) num p / a.get p * 100)))
    ∧ (∀ a : Amounts, buildAccountsNm data den = some a → a.get p ≠ 0 →
        ratioValue (doc_calc_ratios data) nm p
          = some (round2 (acctNum (buildAccountsNm data) num p / a.get p * 100))) := by
  refine ⟨⟨rfl, rfl, rfl⟩, ?_, ?_⟩
  · intro a ha h0
    constructor
    · unfold ratioValue fs_calculate_ratios
      rw [fs_ratios_lookup _ _ _ _ hmem]
      simp only [Option.map_some']
      rw [fs_calc_ratio_get, acctDen_present _ _ _ _ ha]
      rw [if_pos h0]
    · unfold ratioValue dart_calc_ratios
      rw [dart_ratios_lookup _ _ _ _ hmem]
      simp only [Option.map_some']
      rw [dart_ratio_get, acctDen_present _ _ _ _ ha]
      rw [if_pos h0]
  · intro a ha h0
    unfold ratioValue doc_calc_ratios
    rw [dart_ratios_lookup _ _ _ _ hmem]
    simp only [Option.map_some']
    rw [dart_ratio_get, acctDen_present _ _ _ _ ha]
    rw [if_pos h0]

/-- Claim C3 counterexample: operating income 1 over revenue 3 gives the
current-period operating margin 100/3 in
`FinancialService.calculate_ratios`, and 100/3 is not equal to its own
2-decimal rounding 33.33, so the claimed "rounded to 2 decimal places"
is false for this calculator. -/
theorem C3_counterexample :
    ratioValue (fs_calculate_ratios c3_data) "영업이익률" Period.thstrm = some (100/3)
    ∧ round2 (100/3) = 3333/100
    ∧ (100/3 : ℚ) ≠ 3333/100 := by
  refine ⟨?_, ?_, by norm_num⟩
  · unfold ratioValue fs_calculate_ratios
    rw [show (fs_ratios_of (buildAccounts c3_data)).lookup "영업이익률"
        = some (fs_calc_ratio (buildAccounts c3_data) "영업이익" "매출액") from rfl]
    simp only [Option.map_some']
    rw [fs_calc_ratio_get]
    rw [show acctDen (buildAccounts c3_data) "매출액" Period.thstrm = 3 from rfl]
    rw [show acctNum (buildAccounts c3_data) "영업이익" Period.thstrm = 1 from rfl]
    norm_num
  · unfold round2 roundHalfEven
    have hf : ⌊(100/3 : ℚ) * 100⌋ = 3333 := by
      rw [Int.floor_eq_iff] <;> norm_num
    rw [hf]
    rw [if_pos (by push_cast; norm_num : (100/3 : ℚ) * 100 - ((3333 : ℤ) : ℚ) < 1/2)]
    norm_num

/-- Claim C3 witness: the amended theorem applied to operating income 1
over revenue 4 for the current period. -/
theorem C3_witness :
    buildAccounts c3w_data "매출액" = some ⟨4, 0, 0⟩
    ∧ ratioValue (fs_calculate_ratios c3w_data) "영업이익률" Period.thstrm
        = some ((1 : ℚ) / 4 * 100)
    ∧ ratioValue (dart_calc_ratios c3w_data) "영업이익률" Period.thstrm
        = some (round2 ((1 : ℚ) / 4 * 100))
    ∧ ratioValue (doc_calc_ratios c3w_data) "영업이익률" Period.thstrm
        = some (round2 ((1 : ℚ) / 4 * 100)) := by
  have h := C3_amended_thm c3w_data "영업이익률" "영업이익" "매출액" Period.thstrm (by decide)
  have h2 := h.2.1 ⟨4, 0, 0⟩ rfl (by show (4:ℚ) ≠ 0; norm_num)
  have h3 := h.2.2 ⟨4, 0, 0⟩ rfl (by show (4:ℚ) ≠ 0; norm_num)
  exact ⟨rfl, h2.1, h2.2, h3⟩

/-- Claim C9 (confirmed): the Account Normalizer is idempotent — running
`prepare_data` on its own output reassigns exactly the same
`base_display_name` and `display_name` to every record (indeed the whole
output list is unchanged, since the normalizer only writes those two
fields and computes them from fields it never modifies). -/
theorem C9_thm (data : List FinItem) :
    prepare_data (prepare_data data) = prepare_data data := by
  have hstep : pd_step1 (prepare_data data) = prepare_data data := by
    unfold pd_step1
    have hid : ∀ y ∈ prepare_data data,
        ({ y with base_display_name := pd_base y } : FinItem) = id y := by
      intro y hy
      show ({ y with base_display_name := pd_base y } : FinItem) = y
      rw [← base_eq_pd_base_of_mem_prepare data y hy]
    calc (prepare_data data).map (fun item => { item with base_display_name := pd_base item })
        = (prepare_data data).map id := List.map_congr_left hid
      _ = prepare_data data := List.map_id _
  conv_lhs => rw [prepare_data]
  rw [hstep]
  have hmark : ∀ y ∈ prepare_data data, pd_mark (prepare_data data) y = id y := by
    intro y hy
    show pd_mark (prepare_data data) y = y
    have hdisp := display_of_mem_prepare data y hy
    unfold pd_mark
    by_cases hc :
        1 < ((prepare_data data).map fun i => i.base_display_name).count y.base_display_name
    · rw [if_pos hc] at hdisp
      rw [if_pos hc, ← hdisp]
    · rw [if_neg hc] at hdisp
      rw [if_neg hc]
      cases y with
      | mk aid anm ta fa ba dt base disp =>
        dsimp only at hdisp ⊢
        rw [hdisp]
  calc (prepare_data data).map (pd_mark (prepare_data data))
      = (prepare_data data).map id := List.map_congr_left hmark
    _ = prepare_data data := List.map_id _

/-- Claim C2 (corrected).  The original claim — colliding records always
get pairwise-distinct `display_name`s — fails when two colliding records
carry the *same* account identifier (e.g. both empty): both get the same
`base (id)` suffix.  Amended: whenever two records of one record set
collapse onto the same `base_display_name` and their account identifiers
differ, their `display_name`s differ. -/
theorem C2_amended_thm (data : List FinItem) (xs ys zs : List FinItem) (a b : FinItem)
    (hsplit : prepare_data data = xs ++ a :: ys ++ b :: zs)
    (hbase : a.base_display_name = b.base_display_name)
    (hid : a.account_id ≠ b.account_id) :
    a.display_name ≠ b.display_name := by
  have hamem : a ∈ prepare_data data := by
    rw [hsplit]; simp
  have hbmem : b ∈ prepare_data data := by
    rw [hsplit]; simp
  have hcount :
      1 < ((prepare_data data).map fun i => i.base_display_name).count a.base_display_name := by
    rw [hsplit]
    simp only [List.map_append, List.map_cons, List.count_append, List.count_cons]
    have h1 : (a.base_display_name == a.base_display_name) = true := by simp
    have h2 : (b.base_display_name == a.base_display_name) = true := by simp [hbase]
    rw [h1, h2]
    simp only [eq_self_iff_true, if_true]
    omega
  have hcount' :
      1 < ((prepare_data data).map fun i => i.base_display_name).count b.base_display_name := by
    rw [← hbase]
    exact hcount
  have hda := display_of_mem_prepare data a hamem
  have hdb := display_of_mem_prepare data b hbmem
  rw [if_pos hcount] at hda
  rw [if_pos hcount'] at hdb
  intro heq
  apply hid
  exact append_paren_inj a.base_display_name _ _ (by rw [← hda, heq, hdb, ← hbase])

/-- Claim C2 counterexample: two identical raw records (empty identifier,
name `"A"`) collapse onto base `"A"` and both receive the display name
`"A ()"` — the produced `display_name` values are not distinct. -/
theorem C2_counterexample :
    (prepare_data [c2_item, c2_item]).map (fun i => i.base_display_name) = ["A", "A"]
    ∧ (prepare_data [c2_item, c2_item]).map (fun i => i.display_name) = ["A ()", "A ()"]
    ∧ ¬ ((prepare_data [c2_item, c2_item]).map (fun i => i.display_name)).Nodup :=
  ⟨by decide, by decide, by decide⟩

/-- Claim C2 witness: two records reaching the net-income category through
two different identifiers get distinct display names. -/
theorem C2_witness : c2w_a.display_name ≠ c2w_b.display_name :=
  C2_amended_thm c2w_data [] [] [] c2w_a c2w_b (by decide) (by decide) (by decide)

/-- Claim C10 (confirmed): the category → amounts dict kept by the ratio
and valuation calculators holds, for every category, exactly the three
period amounts of the *last* record with that `base_display_name`
(dictionary overwrite in input order), and consequently dropping every
record that has a later record with the same category changes none of
the calculators' outputs. -/
theorem C10_thm :
    (∀ (data : List FinItem) (n : String),
        buildAccounts data n
          = ((data.reverse.find? fun i => i.base_display_name == n).map itemAmounts))
    ∧ (∀ data : List FinItem,
        fs_calculate_ratios (keepLast data) = fs_calculate_ratios data)
    ∧ (∀ data : List FinItem,
        dart_calc_ratios (keepLast data) = dart_calc_ratios data)
    ∧ (∀ (data : List FinItem) (price shares : ℚ),
        fs_calculate_per_pbr (keepLast data) price shares
          = fs_calculate_per_pbr data price shares)
    ∧ (∀ (items : List FinItem) (si : StockInfo),
        stock_calc_per_pbr (keepLast items) si = stock_calc_per_pbr items si) := by
  refine ⟨buildAccounts_eq_find, ?_, ?_, ?_, ?_⟩
  · intro data
    unfold fs_calculate_ratios
    rw [buildAccounts_keepLast]
  · intro data
    unfold dart_calc_ratios
    rw [buildAccounts_keepLast]
  · intro data price shares
    unfold fs_calculate_per_pbr
    rw [buildAccounts_keepLast]
  · intro items si
    unfold stock_calc_per_pbr
    rw [buildAccounts_keepLast]

theorem stock_step_some (accounts : String → Option Amounts) (v shares : ℚ) (p : Period)
    (hs : 0 < shares) :
    stock_step accounts (some v) shares p
      = Except.ok (stock_per_cell accounts v shares "당기순이익" p,
                   stock_per_cell accounts v shares "자본총계" p) := by
  unfold stock_step stock_per_cell
  simp only [if_pos hs]
  by_cases heps : 0 < acctNum accounts "당기순이익" p / shares <;>
    by_cases hbps : 0 < acctNum accounts "자본총계" p / shares <;>
      · simp only [heps, hbps, if_true, if_false]
        rfl

theorem stock_body_some (accounts : String → Option Amounts) (v shares : ℚ)
    (hs : 0 < shares) :
    stock_body_of accounts (some v) shares
      = Except.ok (mkPeriodVals (stock_per_cell accounts v shares "당기순이익"),
                   mkPeriodVals (stock_per_cell accounts v shares "자본총계")) := by
  unfold stock_body_of
  rw [stock_step_some _ _ _ _ hs, stock_step_some _ _ _ _ hs, stock_step_some _ _ _ _ hs]
  rfl

/-- Claim C4 (confirmed): for positive price and share count, each period
is handled independently in both valuation calculators: a period whose
EPS (net income / shares) is non-positive gets the literal `"N/A"` for
PER, a period with positive EPS gets `price / EPS` formatted to two
decimals (a non-negative value); the same per-period rule holds for
BPS/PBR. -/
theorem C4_thm (data : List FinItem) (price shares : ℚ) (hp : 0 < price) (hs : 0 < shares)
    (p : Period) :
    ((epsOf data shares p ≤ 0 →
        (fs_calculate_per_pbr data price shares).PER.get p = PVal.NA)
     ∧ (0 < epsOf data shares p →
        (fs_calculate_per_pbr data price shares).PER.get p
          = PVal.num (round2 (price / epsOf data shares p))
        ∧ 0 ≤ round2 (price / epsOf data shares p))
     ∧ (bpsOf data shares p ≤ 0 →
        (fs_calculate_per_pbr data price shares).PBR.get p = PVal.NA)
     ∧ (0 < bpsOf data shares p →
        (fs_calculate_per_pbr data price shares).PBR.get p
          = PVal.num (round2 (price / bpsOf data shares p))
        ∧ 0 ≤ round2 (price / bpsOf data shares p)))
    ∧ (∀ si : StockInfo, si.status ≠ "no_data" → si.status ≠ "error" →
        si.price = some price → si.shares = some shares →
        ((epsOf data shares p ≤ 0 →
            (stock_calc_per_pbr data si).PER.get p = PVal.NA)
         ∧ (0 < epsOf data shares p →
            (stock_calc_per_pbr data si).PER.get p
              = PVal.num (round2 (price / epsOf data shares p)))
         ∧ (bpsOf data shares p ≤ 0 →
            (stock_calc_per_pbr data si).PBR.get p = PVal.NA)
         ∧ (0 < bpsOf data shares p →
            (stock_calc_per_pbr data si).PBR.get p
              = PVal.num (round2 (price / bpsOf data shares p))))) := by
  have hguard : ¬ (price = 0 ∨ shares = 0) := by
    push_neg
    exact ⟨ne_of_gt hp, ne_of_gt hs⟩
  constructor
  · unfold fs_calculate_per_pbr
    rw [if_neg hguard]
    unfold fs_per_pbr_of
    simp only [mkPeriodVals_get, if_pos hs]
    rw [show acctNum (buildAccounts data) "당기순이익" p / shares = epsOf data shares p from rfl,
      show acctNum (buildAccounts data) "자본총계" p / shares = bpsOf data shares p from rfl]
    refine ⟨?_, ?_, ?_, ?_⟩
    · intro h
      rw [if_neg (not_lt.mpr h)]
    · intro h
      rw [if_pos h]
      exact ⟨rfl, round2_nonneg _ (div_nonneg hp.le h.le)⟩
    · intro h
      rw [if_neg (not_lt.mpr h)]
    · intro h
      rw [if_pos h]
      exact ⟨rfl, round2_nonneg _ (div_nonneg hp.le h.le)⟩
  · intro si h1 h2 hsp hsh
    unfold stock_calc_per_pbr
    rw [if_neg h1, if_neg h2, hsh, hsp]
    dsimp only
    rw [stock_body_some _ _ _ hs]
    dsimp only
    simp only [mkPeriodVals_get]
    unfold stock_per_cell
    rw [show acctNum (buildAccounts data) "당기순이익" p / shares = epsOf data shares p from rfl,
      show acctNum (buildAccounts data) "자본총계" p / shares = bpsOf data shares p from rfl]
    refine ⟨?_, ?_, ?_, ?_⟩
    · intro h
      rw [if_neg (not_lt.mpr h)]
    · intro h
      rw [if_pos h, if_neg (ne_of_gt (div_pos hp h))]
    · intro h
      rw [if_neg (not_lt.mpr h)]
    · intro h
      rw [if_pos h, if_neg (ne_of_gt (div_pos hp h))]

/-- Claim C4 witness: net income 10 (current) and -4 (prior) with price
100 and 2 shares — the current period gets a formatted PER, the prior
period independently gets `"N/A"`, in both calculators. -/
theorem C4_witness :
    (fs_calculate_per_pbr c4_data 100 2).PER.get Period.thstrm
        = PVal.num (round2 (100 / epsOf c4_data 2 Period.thstrm))
    ∧ (fs_calculate_per_pbr c4_data 100 2).PER.get Period.frmtrm = PVal.NA
    ∧ (stock_calc_per_pbr c4_data ⟨"success", some 100, some 2, ""⟩).PER.get Period.thstrm
        = PVal.num (round2 (100 / epsOf c4_data 2 Period.thstrm))
    ∧ (stock_calc_per_pbr c4_data ⟨"success", some 100, some 2, ""⟩).PER.get Period.frmtrm
        = PVal.NA := by
  have heps : (0:ℚ) < epsOf c4_data 2 Period.thstrm := by
    rw [show epsOf c4_data 2 Period.thstrm = 10 / 2 from rfl]
    norm_num
  have heps' : epsOf c4_data 2 Period.frmtrm ≤ 0 := by
    rw [show epsOf c4_data 2 Period.frmtrm = (-4) / 2 from rfl]
    norm_num
  have ht := C4_thm c4_data 100 2 (by norm_num) (by norm_num) Period.thstrm
  have hf := C4_thm c4_data 100 2 (by norm_num) (by norm_num) Period.frmtrm
  refine ⟨(ht.1.2.1 heps).1, hf.1.1 heps', ?_, ?_⟩
  · exact (ht.2 ⟨"success", some 100, some 2, ""⟩ (by decide) (by decide) rfl rfl).2.1 heps
  · exact (hf.2 ⟨"success", some 100, some 2, ""⟩ (by decide) (by decide) rfl rfl).1 heps'

/-- Claim C5 (corrected).  `StockService.calc_per_pbr` never propagates an
exception (it is a total dispatch whose computation branch catches every
raised error), and: status `no_data` yields all-`"N/A"` with the
unlisted-company note; status `error` yields the upstream message as the
note (with `"오류"` marker values, not `"N/A"`); a *missing* (`None`)
share count yields all-`"N/A"` with an explanatory note; a caught
computation exception yields `"오류"` markers and a `"계산 오류: ..."` note.
But — against the original claim — a share count of 0 (falsy without
being `None`) or a falsy price reaches the computation branch and
produces `"N/A"` values with *no* note. -/
theorem C5_amended_thm (items : List FinItem) (si : StockInfo) :
    (si.status = "no_data" →
        stock_calc_per_pbr items si = ⟨naVals, naVals, some "비상장 회사"⟩)
    ∧ (si.status ≠ "no_data" → si.status = "error" →
        stock_calc_per_pbr items si = ⟨errVals, errVals, some si.message⟩)
    ∧ (si.status ≠ "no_data" → si.status ≠ "error" → si.shares = none →
        stock_calc_per_pbr items si
          = ⟨naVals, naVals, some "발행주식수 정보 없음 (데이터 제공자 한계)"⟩)
    ∧ (∀ (s : ℚ) (r : PeriodVals × PeriodVals),
        si.status ≠ "no_data" → si.status ≠ "error" → si.shares = some s →
        stock_body_of (buildAccounts items) si.price s = Except.ok r →
        stock_calc_per_pbr items si = ⟨r.1, r.2, none⟩)
    ∧ (∀ (s : ℚ) (e : String),
        si.status ≠ "no_data" → si.status ≠ "error" → si.shares = some s →
        stock_body_of (buildAccounts items) si.price s = Except.error e →
        stock_calc_per_pbr items si = ⟨errVals, errVals, some ("계산 오류: " ++ e)⟩) := by
  refine ⟨fun h => ?_, fun h1 h2 => ?_, fun h1 h2 h3 => ?_,
    fun s r h1 h2 h3 hb => ?_, fun s e h1 h2 h3 hb => ?_⟩
  · unfold stock_calc_per_pbr
    rw [if_pos h]
  · unfold stock_calc_per_pbr
    rw [if_neg h1, if_pos h2]
  · unfold stock_calc_per_pbr
    rw [if_neg h1, if_neg h2, h3]
  · unfold stock_calc_per_pbr
    rw [if_neg h1, if_neg h2, h3]
    dsimp only
    rw [hb]
  · unfold stock_calc_per_pbr
    rw [if_neg h1, if_neg h2, h3]
    dsimp only
    rw [hb]

/-- Claim C5 counterexample: a provider result with status `"success"`, a
price, and a share count of exactly 0 — price/shares falsy — makes
`StockService.calc_per_pbr` return all-`"N/A"` values with `note = None`,
not the reason-bearing note the claim requires for falsy price/shares. -/
theorem C5_counterexample :
    stock_calc_per_pbr [] c5_si = ⟨naVals, naVals, none⟩
    ∧ c5_si.shares = some 0 :=
  ⟨by decide, by decide⟩

/-- Claim C5 witness: the amended theorem applied to a `no_data` provider
result. -/
theorem C5_witness :
    stock_calc_per_pbr [] c5w_si = ⟨naVals, naVals, some "비상장 회사"⟩ :=
  (C5_amended_thm [] c5w_si).1 rfl

/-- Claim C6 (confirmed): the comparison assembler's keys are exactly the
distinct years read from the items' current-period date fields across
all companies (a year key exists iff some item of some company yields
it), iterated in strictly descending order, and every year bucket is the
same list: one entry per input company in input iteration order, each
carrying that company's entire normalized item list and entire ratio set
(no year filtering). -/
theorem C6_thm (companies : List (String × CompData)) (info : List (String × CompMeta)) :
    ((format_comparison_by_year companies info).map Prod.fst).Pairwise
        (fun a b => strLt b a = true)
    ∧ (∀ y : String,
        y ∈ (format_comparison_by_year companies info).map Prod.fst ↔ y ∈ yearsOf companies)
    ∧ (∀ pr : String × List CompEntry, pr ∈ format_comparison_by_year companies info →
        pr.2 = companies.map (comparison_entry info)) := by
  have hkeys : (format_comparison_by_year companies info).map Prod.fst
      = sortDesc (yearsOf companies).dedup := by
    unfold format_comparison_by_year
    dsimp only
    rw [List.map_map]
    have hcomp : (Prod.fst ∘ fun year => (year, companies.map (comparison_entry info)))
        = fun y : String => y := rfl
    rw [hcomp]
    exact List.map_id _
  refine ⟨?_, ?_, ?_⟩
  · rw [hkeys]
    have hnd : (sortDesc (yearsOf companies).dedup).Nodup :=
      ((sortDesc_perm _).nodup_iff).mpr (List.nodup_dedup _)
    have hge := sortDesc_pairwise (yearsOf companies).dedup
    refine (hge.and hnd).imp ?_
    intro a b hab
    by_cases hba : strLt b a = true
    · exact hba
    · exact absurd (strLt_conn a b hab.1 (by simpa using hba)) hab.2
  · intro y
    rw [hkeys]
    constructor
    · intro hy
      exact List.mem_dedup.mp ((sortDesc_perm _).mem_iff.mp hy)
    · intro hy
      exact (sortDesc_perm _).mem_iff.mpr (List.mem_dedup.mpr hy)
  · intro pr hpr
    unfold format_comparison_by_year at hpr
    obtain ⟨y, _, rfl⟩ := List.mem_map.mp hpr
    rfl

/-- Claim C6 witness: a one-company input with a single 2024-dated item —
the 2024 bucket is present and equals the per-company entry list built
from the full (unfiltered) data. -/
theorem C6_witness :
    c6_pair ∈ format_comparison_by_year c6_companies c6_info
    ∧ c6_pair.2 = c6_companies.map (comparison_entry c6_info) :=
  ⟨by decide, (C6_thm c6_companies c6_info).2.2 c6_pair (by decide)⟩

/-- Claim C7 (confirmed): for every outcome of every external stage
(download, parser availability, document parse, extraction), the public
entry point of the document pipeline returns a result whose `success`
flag is true, or one with `success = false` and an error string present
— every modelled exception is caught, none escapes. -/
theorem C7_thm (report_nm : String) (has_upstage : Bool)
    (download_result parse_result : Except PyErr Unit)
    (extract_result : Except PyErr (List ExtractedItem)) (st : FSState) :
    ((extract_financial_from_document report_nm has_upstage download_result parse_result
        extract_result st).1.success = true
      ∧ (extract_financial_from_document report_nm has_upstage download_result parse_result
        extract_result st).1.error = none
      ∧ (extract_financial_from_document report_nm has_upstage download_result parse_result
        extract_result st).1.items.isSome = true
      ∧ (extract_financial_from_document report_nm has_upstage download_result parse_result
        extract_result st).1.ratios.isSome = true)
    ∨ ((extract_financial_from_document report_nm has_upstage download_result parse_result
        extract_result st).1.success = false
      ∧ (extract_financial_from_document report_nm has_upstage download_result parse_result
        extract_result st).1.error.isSome = true) := by
  unfold extract_financial_from_document
  rcases download_result with e | u
  · exact Or.inr ⟨rfl, rfl⟩
  · cases has_upstage
    · exact Or.inr ⟨rfl, rfl⟩
    · rcases parse_result with e | u2
      · exact Or.inr ⟨rfl, rfl⟩
      · rcases extract_result with e | items
        · exact Or.inr ⟨rfl, rfl⟩
        · exact Or.inl ⟨rfl, rfl, rfl, rfl⟩

/-- Claim C8 (confirmed): starting with no temporary file on disk, after
either document pipeline returns — whatever the outcome of every stage
(success, parse failure, or an exception during parsing/extraction) —
the temporary downloaded file does not exist: the `finally` blocks
delete it on every path that created it. -/
theorem C8_thm (reports : List Report) (u_download u_read : Except PyErr Unit)
    (tables : String) (llm_result : Except PyErr (List ExtractedItem)) (bsns_year : String)
    (report_nm : String) (has_upstage : Bool) (d_download d_parse : Except PyErr Unit)
    (extract_result : Except PyErr (List ExtractedItem)) :
    (get_unlisted_financial_data reports u_download u_read tables llm_result bsns_year
        ⟨false⟩).2.tempExists = false
    ∧ (extract_financial_from_document report_nm has_upstage d_download d_parse
        extract_result ⟨false⟩).2.tempExists = false := by
  constructor
  · unfold get_unlisted_financial_data
    dsimp only
    repeat' split
    all_goals rfl
  · unfold extract_financial_from_document
    dsimp only
    repeat' split
    all_goals rfl
